import Mathlib

/-!
# Verification of the loraftp link + transfer stack

Shallow embedding of the loraftp repository (Waveshare radio driver framing,
Counter32 block-id expansion, FileSender transmit loop, FileReceiver state
machine) and proofs of the specification claims about it.

Bytes are modelled as `Nat` (values < 256 on the wire); 32-bit machine
arithmetic is made explicit with `% 2^32`.  The fountain codec (wirehair) and
the compressor (zstd) are external black boxes per the spec and are modelled
as oracle inputs to the functions that call them.
-/

namespace Loraftp

/-- `kPacketMaxBytes` from waveshare.hpp. -/
def kPacketMaxBytes : Nat := 235

/-- `kFileBlockBytes = kPacketMaxBytes - 1` from loraftp.hpp. -/
def kFileBlockBytes : Nat := 234

/-- `kBlockBytes` from loraftp.cpp (block size passed to the encoder). -/
def kBlockBytes : Nat := 234

/-! ## CRC-32C (`FastCrc32`, tools.cpp, ARM path)

The ARM-v8 build of `FastCrc32` applies the `__crc32c*` intrinsics to the
data in memory order, which is exactly the byte-serial reflected CRC-32C
(Castagnoli polynomial `0x82F63B78`) with initial value `0xffffffff` and a
final complement. -/

/-- One bit step of the reflected CRC-32C: shift right, xor the polynomial
when the bit shifted out was set. -/
def crcBitStep (c : Nat) : Nat :=
  if c % 2 = 1 then (c / 2) ^^^ 0x82F63B78 else c / 2

/-- Absorb one byte into the running CRC (8 bit steps on `crc ^ byte`),
the semantics of the `__crc32cb` intrinsic. -/
def crcUpdate (crc b : Nat) : Nat :=
  crcBitStep^[8] (crc ^^^ (b % 256))

/-- `FastCrc32` (tools.cpp): CRC-32C of a byte buffer. -/
def FastCrc32 (data : List Nat) : Nat :=
  0xffffffff ^^^ (data.foldl crcUpdate 0xffffffff)

/-! ## Little-endian 32-bit serialization (tools.hpp) -/

/-- `WriteU32_LE` (tools.hpp): the four bytes of a 32-bit value,
least-significant first. -/
def WriteU32_LE (v : Nat) : List Nat :=
  [v % 256, v / 2^8 % 256, v / 2^16 % 256, v / 2^24 % 256]

/-- `ReadU32_LE` (tools.hpp) at offset `i` of a buffer (missing bytes read
as 0, matching the fact that the code only calls it in bounds). -/
def ReadU32_LE (buf : List Nat) (i : Nat) : Nat :=
  buf.getD i 0 + buf.getD (i+1) 0 * 2^8 + buf.getD (i+2) 0 * 2^16 + buf.getD (i+3) 0 * 2^24

/-! ## `Waveshare::Send` (waveshare.cpp)

`Send` rejects payloads above `kPacketMaxBytes`; otherwise it writes the
length byte, the little-endian CRC-32C of the payload and the payload in a
single serial write.  The lazy `SetAddress` switch does not touch the frame
bytes and is omitted. -/

/-- `Waveshare::Send`: `none` models `return false` before anything is
written; `some frame` is the byte string handed to the UART in one call. -/
def WaveshareSend (data : List Nat) : Option (List Nat) :=
  if data.length > kPacketMaxBytes then
    none
  else
    some ([data.length] ++ WriteU32_LE (FastCrc32 data) ++ data)

/-! ## `Counter32::ExpandFromTruncated`

Modelled from the spec: the header `Counter.h` that defines
`Counter32::ExpandFromTruncated` is not part of the source tree (loraftp.hpp
includes it from a subproject); only its call site in
`FileReceiver::OnBlock` is present.  Per spec §3/§4.3 the function returns
the 32-bit value whose low 8 bits equal `low8` and whose signed distance to
`last` (the signed 8-bit representative of the truncated difference) has
minimal magnitude, ties resolving upward. -/

/-- Modelled from the spec: `Counter32::ExpandFromTruncated(last, low8)`
(implementation missing from src; see section comment).  `diff` is the
truncated difference `low8 - last mod 256`; it is applied as a signed 8-bit
offset in `(-128, 128]` (tie `128` resolves upward). -/
def expandFromTruncated (last low8 : Nat) : Nat :=
  let diff := (low8 + 256 - last % 256) % 256
  if diff ≤ 128 then (last + diff) % 2^32
  else (last + 2^32 + diff - 256) % 2^32

/-! ## `Waveshare::Receive` (waveshare.cpp)

The inbound parser scans the accumulated buffer: each byte is a candidate
length `L`; `L = 0` or `L > 235` skips one byte; an incomplete candidate
pauses the scan; a CRC match fires the callback with the payload and jumps
past the frame (`start_offset += 4 + packet_bytes` plus the loop `++`);
a CRC mismatch skips one byte.  Finally all bytes before the stop position
are discarded (compaction).

The C++ `for` loop is embedded with an explicit fuel argument (the loop
advances at least one byte per iteration, so fuel `buf.length` makes the
recursion structural and the fuel-exhausted branch unreachable). -/

/-- Payload of the candidate frame starting at `p`: the `L = buf[p]` bytes
after the 5-byte header, i.e. what `callback(RecvBuffer + p + 5, L)` sees. -/
def payloadAt (buf : List Nat) (p : Nat) : List Nat :=
  (buf.drop (p + 5)).take (buf.getD p 0)

/-- The scan loop of `Waveshare::Receive`.  Returns the list of
`(position, payload)` pairs for which the callback fired, in order, and the
final `start_offset` used for compaction. -/
def recvScanFuel : Nat → List Nat → Nat → List (Nat × List Nat) × Nat
  | 0, _, s => ([], s)
  | fuel + 1, buf, s =>
    if s + 5 < buf.length then
      if buf.getD s 0 = 0 ∨ buf.getD s 0 > kPacketMaxBytes then
        recvScanFuel fuel buf (s + 1)
      else if buf.length - s < 5 + buf.getD s 0 then
        ([], s)
      else if ReadU32_LE buf (s + 1) = FastCrc32 (payloadAt buf s) then
        ((s, payloadAt buf s) :: (recvScanFuel fuel buf (s + 5 + buf.getD s 0)).1,
         (recvScanFuel fuel buf (s + 5 + buf.getD s 0)).2)
      else
        recvScanFuel fuel buf (s + 1)
    else ([], s)

/-- `Waveshare::Receive` on the current buffer contents: the payloads
delivered to the callback, in order, and the compacted buffer. -/
def WaveshareReceive (buf : List Nat) : List (List Nat) × List Nat :=
  let r := recvScanFuel buf.length buf 0
  (r.1.map Prod.snd, buf.drop r.2)

/-- A well-formed frame at position `p`: valid length byte, fully contained
in the buffer, and the embedded CRC matches the CRC-32C of the payload. -/
def WellFormedFrameAt (buf : List Nat) (p : Nat) : Prop :=
  1 ≤ buf.getD p 0 ∧ buf.getD p 0 ≤ kPacketMaxBytes ∧
  p + 5 + buf.getD p 0 ≤ buf.length ∧
  ReadU32_LE buf (p + 1) = FastCrc32 (payloadAt buf p)

instance (buf : List Nat) (p : Nat) : Decidable (WellFormedFrameAt buf p) := by
  unfold WellFormedFrameAt; infer_instance

/-- A candidate at `i` that makes the greedy scan step over or stall before
position `q`: a valid length byte whose frame extent ends past `q` and which
either runs past the end of the buffer (scan pauses) or has a matching CRC
(scan emits it and jumps past `q`). -/
def CrossingCandidateAt (buf : List Nat) (i q : Nat) : Prop :=
  1 ≤ buf.getD i 0 ∧ buf.getD i 0 ≤ kPacketMaxBytes ∧
  q < i + 5 + buf.getD i 0 ∧
  (buf.length < i + 5 + buf.getD i 0 ∨ ReadU32_LE buf (i + 1) = FastCrc32 (payloadAt buf i))

instance (buf : List Nat) (i q : Nat) : Decidable (CrossingCandidateAt buf i q) := by
  unfold CrossingCandidateAt; infer_instance

/-! ## `FileSender::Loop` data plane (loraftp.cpp)

The loop keeps a 235-byte buffer `block`.  Before the loop,
`wirehair_encode(Encoder, 0, block + 1, kBlockBytes, &block_bytes)` fills
bytes 1..234 (byte 0 is uninitialized, modelled by the parameter `u0`).
Each iteration sets `block[0] = (uint8_t)block_id`, sends
`1 + block_bytes` bytes, increments the id and then calls
`wirehair_encode(Encoder, block_id, block, kBlockBytes, &block_bytes)` —
note the destination `block`, not `block + 1`.  The encoder is the
black-box oracle `enc`; `wirehair_encode` writes `(enc id).length` bytes at
the given destination. -/

/-- Packets emitted by `FileSender::Loop` starting from buffer `b` at block
id `id`, for `n` further iterations. -/
def senderRun (enc : Nat → List Nat) : List Nat → Nat → Nat → List (List Nat)
  | _, _, 0 => []
  | b, id, n + 1 =>
    let sent := b.set 0 (id % 256)
    sent.take (1 + (enc id).length) ::
      senderRun enc (enc (id + 1) ++ sent.drop (enc (id + 1)).length) (id + 1) n

/-- The first `n` packets `FileSender::Loop` hands to `Uplink.Send`
(`u0` is the uninitialized first byte of the stack buffer). -/
def senderPackets (enc : Nat → List Nat) (u0 n : Nat) : List (List Nat) :=
  senderRun enc (u0 :: enc 0) 0 n

/-! ## `FileReceiver` (loraftp.cpp)

The wirehair decoder and zstd are black boxes (spec §1); their per-call
results are oracle inputs.  Progress callbacks are modelled as events; a
ghost `submit` event records each `wirehair_decode` call. -/

/-- The three classes of `wirehair_decode` results the receiver's control
flow distinguishes. -/
inductive WirehairResult where
  | success
  | needMore
  | error
deriving DecidableEq, Repr

/-- Observable (and ghost) events of one receiver callback. -/
inductive RxEvent where
  /-- `OnRecv(progress, nullptr, nullptr, 0)` — a progress-only callback. -/
  | progress
  /-- `OnRecv(1.f, file_name, file_data, file_bytes)` — final delivery. -/
  | deliver (name : List Nat) (fileData : List Nat)
  /-- Ghost event: `wirehair_decode(Decoder, blockId, data, len)` was called
  with this block id and data. -/
  | submit (blockId : Nat) (blockData : List Nat)
deriving DecidableEq, Repr

/-- Oracle for the external codec/compressor calls made while handling one
data block. -/
structure BlockOracle where
  /-- Result class of the `wirehair_decode` call. -/
  decodeRes : WirehairResult
  /-- `wirehair_recover` output (contents of `FileData`), `none` = failure. -/
  recoverRes : Option (List Nat)
  /-- Return value of `ZSTD_decompress` (error codes are values different
  from the expected decompressed size). -/
  zstdRet : Nat
  /-- Contents of `DecompressedData` after the call (the vector is resized
  to `DecompressedBytes` beforehand). -/
  zstdOut : List Nat
deriving Repr

/-- Receiver state (fields of `FileReceiver`). -/
structure RxState where
  /-- `TransferComplete` latch. -/
  transferComplete : Bool
  /-- `FileBytes` — compressed length from the info packet (0 = none yet). -/
  fileBytes : Nat
  /-- `DecompressedBytes` from the info packet. -/
  decompressedBytes : Nat
  /-- `FileHash` from the info packet. -/
  fileHash : Nat
  /-- `NextBlockId` (32-bit monotonic counter). -/
  nextBlockId : Nat
  /-- `TotalBlockCount`. -/
  totalBlockCount : Nat
  /-- `FileBlockCount` (progress numerator). -/
  fileBlockCount : Nat
  /-- `BufferedBlocks`: truncated id and 234 data bytes per early block. -/
  bufferedBlocks : List (Nat × List Nat)
deriving DecidableEq, Repr

/-- The zeroed state a fresh `FileReceiver` starts in. -/
def initialRxState : RxState :=
  { transferComplete := false, fileBytes := 0, decompressedBytes := 0,
    fileHash := 0, nextBlockId := 0, totalBlockCount := 0,
    fileBlockCount := 0, bufferedBlocks := [] }

/-- The delivery stage at the end of `FileReceiver::OnBlock`: read
`name_length` from the first decompressed byte, reject if
`1 + name_length + 1` exceeds `DecompressedBytes` (`D`), otherwise force a
NUL at index `1 + name_length` and deliver the name (C string at byte 1)
and the remaining file bytes. -/
def deliverStage (D : Nat) (dd : List Nat) : Option (List Nat × List Nat) :=
  let nameLen := dd.headI
  let headerBytes := 1 + nameLen + 1
  if D < headerBytes then none
  else
    let dd' := dd.set (1 + nameLen) 0
    some (((dd'.drop 1).take nameLen).takeWhile (· ≠ 0), dd'.drop headerBytes)

/-- `FileReceiver::OnBlock` — `data` is the 234-byte block payload (the
truncated id byte has already been stripped by the caller). -/
def onBlock (st : RxState) (truncId : Nat) (data : List Nat) (orc : BlockOracle) :
    RxState × List RxEvent :=
  if st.transferComplete then (st, [])
  else if st.fileBytes = 0 then
    ({ st with bufferedBlocks := st.bufferedBlocks ++ [(truncId, data)] }, [])
  else
    let nid := expandFromTruncated st.nextBlockId truncId
    let st1 := { st with nextBlockId := nid }
    -- wirehair_decode(Decoder, NextBlockId, data + 1, bytes - 1)
    let ev0 : RxEvent := .submit nid (data.drop 1)
    match orc.decodeRes with
    | .needMore =>
      ({ st1 with fileBlockCount := st1.fileBlockCount + 1 }, [ev0, .progress])
    | .error => ({ st1 with transferComplete := true }, [ev0])
    | .success =>
      let st2 := { st1 with transferComplete := true }
      match orc.recoverRes with
      | none => (st2, [ev0])
      | some _ =>
        if orc.zstdRet ≠ st2.decompressedBytes then (st2, [ev0])
        else
          match deliverStage st2.decompressedBytes orc.zstdOut with
          | none => (st2, [ev0])
          | some (name, fileData) => (st2, [ev0, .deliver name fileData])

/-- Oracle for one `OnFileInfo` call: decoder (re)creation success and the
codec oracles for the replayed buffered blocks. -/
structure InfoOracle where
  /-- `wirehair_decoder_create` returned a decoder. -/
  initOk : Bool
  /-- Oracles for the blocks replayed out of `BufferedBlocks`. -/
  replay : Nat → BlockOracle

/-- Replay of the buffered early blocks through `OnBlock`. -/
def replayBlocks : RxState → List (Nat × List Nat) → (Nat → BlockOracle) →
    RxState × List RxEvent
  | st, [], _ => (st, [])
  | st, (tid, data) :: rest, orcs =>
    let r := onBlock st tid data (orcs 0)
    let r' := replayBlocks r.1 rest (fun i => orcs (i + 1))
    (r'.1, r.2 ++ r'.2)

/-- `FileReceiver::OnFileInfo`. -/
def onFileInfo (st : RxState) (fileBytes hash nextBlockId decompressedBytes : Nat)
    (orc : InfoOracle) : RxState × List RxEvent :=
  if fileBytes = 0 ∨ decompressedBytes < 2 then (st, [])
  else
    let stA := { st with nextBlockId := nextBlockId }
    if stA.fileBytes = fileBytes ∧ stA.fileHash = hash ∧
        stA.decompressedBytes = decompressedBytes then
      (stA, [])
    else
      let stB := { stA with transferComplete := false }
      let stC :=
        if orc.initOk then
          { stB with fileBytes := fileBytes, fileHash := hash,
                     decompressedBytes := decompressedBytes }
        else stB
      let stD := { stC with
        totalBlockCount := (stC.fileBytes + kFileBlockBytes - 1) / kFileBlockBytes,
        fileBlockCount := 0 }
      let r := replayBlocks stD stD.bufferedBlocks orc.replay
      ({ r.1 with bufferedBlocks := [] }, RxEvent.progress :: r.2)

/-- The failure conditions of the decode/recover/decompress/parse pipeline
in `OnBlock`: the decode call did not say "need more", and some stage after
it fails (decode error, recover failure, decompression result different
from the expected decompressed length, or inner-header guard failure). -/
def blockFailure (st : RxState) (orc : BlockOracle) : Prop :=
  orc.decodeRes ≠ .needMore ∧
  (orc.decodeRes ≠ .success ∨ orc.recoverRes = none ∨
   orc.zstdRet ≠ st.decompressedBytes ∨
   deliverStage st.decompressedBytes orc.zstdOut = none)

instance (st : RxState) (orc : BlockOracle) : Decidable (blockFailure st orc) := by
  unfold blockFailure; infer_instance

/-- Oracle bundle for one packet callback. -/
structure StepOracle where
  /-- Used when the packet is a 16-byte info packet. -/
  info : InfoOracle
  /-- Used when the packet is a 235-byte data packet. -/
  block : BlockOracle

/-- The packet dispatch inside `FileReceiver::Loop`'s receive callback:
16-byte payloads are info packets, `kPacketMaxBytes` payloads are data
packets (`OnBlock(data[0], data + 1, bytes - 1)`), all else is ignored. -/
def rxDispatch (st : RxState) (packet : List Nat) (orc : StepOracle) :
    RxState × List RxEvent :=
  if packet.length = 16 then
    onFileInfo st (ReadU32_LE packet 0) (ReadU32_LE packet 4)
      (ReadU32_LE packet 8) (ReadU32_LE packet 12) orc.info
  else if packet.length = kPacketMaxBytes then
    onBlock st packet.headI (packet.drop 1) orc.block
  else (st, [])

/-- Run the receiver over a sequence of delivered packets, collecting all
events. -/
def rxRun : RxState → List (List Nat) → (Nat → StepOracle) → RxState × List RxEvent
  | st, [], _ => (st, [])
  | st, p :: ps, orcs =>
    let r := rxDispatch st p (orcs 0)
    let r' := rxRun r.1 ps (fun i => orcs (i + 1))
    (r'.1, r.2 ++ r'.2)

/-! # Theorems -/

/-- C3: for a payload of length `L` with `1 ≤ L ≤ 235`, `Waveshare::Send`
writes exactly `L + 5` bytes in one call — the length byte `L`, the
little-endian CRC-32C of the payload, then the payload — and fails without
writing when `L > 235`. -/
theorem waveshareSend_frame_format (data : List Nat) :
    (1 ≤ data.length → data.length ≤ kPacketMaxBytes →
      WaveshareSend data =
        some (data.length :: (WriteU32_LE (FastCrc32 data) ++ data)) ∧
      ∀ frame, WaveshareSend data = some frame →
        frame.length = data.length + 5 ∧
        frame.headI = data.length ∧
        (frame.drop 1).take 4 = WriteU32_LE (FastCrc32 data) ∧
        frame.drop 5 = data) ∧
    (kPacketMaxBytes < data.length → WaveshareSend data = none) := by
  constructor
  · intro _ h2
    have hn : ¬ data.length > kPacketMaxBytes := by omega
    refine ⟨by simp [WaveshareSend, hn], ?_⟩
    intro frame hf
    have hfr : frame = data.length :: (WriteU32_LE (FastCrc32 data) ++ data) :=
      (by simpa [WaveshareSend, hn] using hf : _ = frame).symm
    subst hfr
    refine ⟨by simp [WriteU32_LE], by simp, ?_, ?_⟩
    · simpa using List.take_left' (by simp [WriteU32_LE])
    · simp [WriteU32_LE]
  · intro h
    simp [WaveshareSend, show data.length > kPacketMaxBytes from h]

/-- Witness for C3 at the one-byte payload `[7]`. -/
theorem waveshareSend_frame_format_witness :
    ∃ frame, WaveshareSend [7] = some frame ∧ frame.length = 6 ∧
      frame.headI = 1 ∧ frame.drop 5 = [7] := by
  obtain ⟨hmain, _⟩ := waveshareSend_frame_format [7]
  obtain ⟨hsend, hall⟩ := hmain (by decide) (by decide)
  exact ⟨_, hsend, (hall _ hsend).1, (hall _ hsend).2.1, (hall _ hsend).2.2.2⟩

/-- C4: `expand_block_id(last, low8)` returns a 32-bit value whose low 8
bits equal `low8`, lying at the signed offset `d ∈ (-128, 128]` congruent to
`low8 - last` mod 256, which has strictly minimal magnitude among all such
offsets except for the tie `|d| = 128`, resolved upward (`d = 128`); and the
two concrete examples from the spec hold.  (`expandFromTruncated` is
modelled from the spec; `Counter.h` is not in the source tree.) -/
theorem expandFromTruncated_nearest (last low8 : Nat)
    (hlast : last < 2^32) (hlow : low8 < 256) :
    expandFromTruncated last low8 % 256 = low8 ∧
    expandFromTruncated last low8 < 2^32 ∧
    (∃ d : Int,
      ((last : Int) + d) % 2^32 = (expandFromTruncated last low8 : Int) ∧
      -128 < d ∧ d ≤ 128 ∧
      d % 256 = ((low8 : Int) - (last : Int)) % 256 ∧
      (∀ e : Int, e % 256 = ((low8 : Int) - (last : Int)) % 256 → e ≠ d →
        d.natAbs < e.natAbs ∨ (d.natAbs = e.natAbs ∧ e < d))) ∧
    expandFromTruncated 0x123 0x01 = 0x101 ∧
    expandFromTruncated 0x1FE 0x01 = 0x201 := by
  have hpow : (2 : Nat)^32 = 4294967296 := by norm_num
  have hex1 : expandFromTruncated 0x123 0x01 = 0x101 := by decide
  have hex2 : expandFromTruncated 0x1FE 0x01 = 0x201 := by decide
  unfold expandFromTruncated
  rw [hpow] at hlast ⊢
  by_cases hd : (low8 + 256 - last % 256) % 256 ≤ 128
  · rw [if_pos hd]
    refine ⟨by omega, by omega,
      ⟨(((low8 + 256 - last % 256) % 256 : Nat) : Int), by omega, by omega,
        by omega, by omega, ?_⟩, hex1, hex2⟩
    intro e he hne
    omega
  · rw [if_neg hd]
    refine ⟨by omega, by omega,
      ⟨(((low8 + 256 - last % 256) % 256 : Nat) : Int) - 256, by omega, by omega,
        by omega, by omega, ?_⟩, hex1, hex2⟩
    intro e he hne
    omega

/-- Witness for C4 at `last = 0x123`, `low8 = 0x01`. -/
theorem expandFromTruncated_nearest_witness :
    expandFromTruncated 291 1 % 256 = 1 ∧ expandFromTruncated 291 1 = 257 := by
  obtain ⟨h1, -, -, hex, -⟩ := expandFromTruncated_nearest 291 1 (by decide) (by decide)
  exact ⟨h1, hex⟩

/-- Every `(position, payload)` pair the scan emits from position `s` on is
a well-formed frame at a position `≥ s` with its payload, and the emitted
positions are in stream order with non-overlapping frame extents. -/
lemma recvScan_sound (fuel : Nat) (buf : List Nat) : ∀ s,
    (∀ pr ∈ (recvScanFuel fuel buf s).1,
      s ≤ pr.1 ∧ WellFormedFrameAt buf pr.1 ∧ pr.2 = payloadAt buf pr.1) ∧
    ((recvScanFuel fuel buf s).1.map Prod.fst).Chain'
      (fun a b => a + 5 + buf.getD a 0 ≤ b) := by
  induction fuel with
  | zero => intro s; simp [recvScanFuel]
  | succ fuel ih =>
    intro s
    by_cases hloop : s + 5 < buf.length
    case neg => simp [recvScanFuel, hloop]
    case pos =>
    by_cases hbad : buf.getD s 0 = 0 ∨ buf.getD s 0 > kPacketMaxBytes
    case pos =>
      have hE : recvScanFuel (fuel + 1) buf s = recvScanFuel fuel buf (s + 1) := by
        simp only [recvScanFuel]
        rw [if_pos hloop, if_pos hbad]
      rw [hE]
      refine ⟨fun pr hpr => ?_, (ih (s + 1)).2⟩
      obtain ⟨h1, h2, h3⟩ := (ih (s + 1)).1 pr hpr
      exact ⟨by omega, h2, h3⟩
    case neg =>
    by_cases hinc : buf.length - s < 5 + buf.getD s 0
    case pos =>
      have hE : recvScanFuel (fuel + 1) buf s = ([], s) := by
        simp only [recvScanFuel]
        rw [if_pos hloop, if_neg hbad, if_pos hinc]
      rw [hE]
      simp
    case neg =>
    by_cases hcrc : ReadU32_LE buf (s + 1) = FastCrc32 (payloadAt buf s)
    case pos =>
      have hE : recvScanFuel (fuel + 1) buf s =
          ((s, payloadAt buf s) ::
            (recvScanFuel fuel buf (s + 5 + buf.getD s 0)).1,
           (recvScanFuel fuel buf (s + 5 + buf.getD s 0)).2) := by
        simp only [recvScanFuel]
        rw [if_pos hloop, if_neg hbad, if_neg hinc, if_pos hcrc]
      rw [hE]
      have hwf : WellFormedFrameAt buf s := ⟨by omega, by omega, by omega, hcrc⟩
      constructor
      · intro pr hpr
        rcases List.mem_cons.mp hpr with hpr | hpr
        · subst hpr; exact ⟨le_refl s, hwf, rfl⟩
        · obtain ⟨h1, h2, h3⟩ := (ih (s + 5 + buf.getD s 0)).1 pr hpr
          exact ⟨by omega, h2, h3⟩
      · rw [List.map_cons, List.chain'_cons']
        refine ⟨fun b hb => ?_, (ih (s + 5 + buf.getD s 0)).2⟩
        obtain ⟨pr, hpr, rfl⟩ :=
          List.mem_map.mp (List.mem_of_mem_head? hb)
        exact ((ih (s + 5 + buf.getD s 0)).1 pr hpr).1
    case neg =>
      have hE : recvScanFuel (fuel + 1) buf s = recvScanFuel fuel buf (s + 1) := by
        simp only [recvScanFuel]
        rw [if_pos hloop, if_neg hbad, if_neg hinc, if_neg hcrc]
      rw [hE]
      refine ⟨fun pr hpr => ?_, (ih (s + 1)).2⟩
      obtain ⟨h1, h2, h3⟩ := (ih (s + 1)).1 pr hpr
      exact ⟨by omega, h2, h3⟩

/-- Self-synchronization: a well-formed frame at `q` is emitted by the scan
from any start position `s ≤ q`, provided no candidate frame starting
before `q` crosses `q` (makes the scan emit past `q` or stall). -/
lemma recvScan_complete (buf : List Nat) (q : Nat)
    (hq : WellFormedFrameAt buf q)
    (hcross : ∀ i, i < q → ¬ CrossingCandidateAt buf i q) :
    ∀ fuel s, buf.length ≤ fuel + s → s ≤ q →
      (q, payloadAt buf q) ∈ (recvScanFuel fuel buf s).1 := by
  obtain ⟨hq1, hq2, hq3, hq4⟩ := hq
  intro fuel
  induction fuel with
  | zero => intro s hfuel hs; omega
  | succ fuel ih =>
    intro s hfuel hs
    have hloop : s + 5 < buf.length := by omega
    rcases Nat.eq_or_lt_of_le hs with rfl | hsq
    · -- the scan sits exactly on the frame: it is emitted
      have hbad : ¬ (buf.getD s 0 = 0 ∨ buf.getD s 0 > kPacketMaxBytes) := by omega
      have hinc : ¬ (buf.length - s < 5 + buf.getD s 0) := by omega
      simp only [recvScanFuel]
      rw [if_pos hloop, if_neg hbad, if_neg hinc, if_pos hq4]
      exact List.mem_cons_self _ _
    · -- s < q: the scan advances without crossing q
      by_cases hbad : buf.getD s 0 = 0 ∨ buf.getD s 0 > kPacketMaxBytes
      · simp only [recvScanFuel]
        rw [if_pos hloop, if_pos hbad]
        exact ih (s + 1) (by omega) (by omega)
      · by_cases hinc : buf.length - s < 5 + buf.getD s 0
        · -- stall before q: contradicts the no-crossing hypothesis
          exact absurd ⟨by omega, by omega, by omega, Or.inl (by omega)⟩
            (hcross s hsq)
        · by_cases hcrc : ReadU32_LE buf (s + 1) = FastCrc32 (payloadAt buf s)
          · -- an emitted frame before q must end at or before q
            have hend : s + 5 + buf.getD s 0 ≤ q := by
              by_contra hgt
              exact absurd ⟨by omega, by omega, by omega, Or.inr hcrc⟩
                (hcross s hsq)
            simp only [recvScanFuel]
            rw [if_pos hloop, if_neg hbad, if_neg hinc, if_pos hcrc]
            exact List.mem_cons_of_mem _ (ih (s + 5 + buf.getD s 0) (by omega) hend)
          · simp only [recvScanFuel]
            rw [if_pos hloop, if_neg hbad, if_neg hinc, if_neg hcrc]
            exact ih (s + 1) (by omega) (by omega)

/-- C2 (amended): the parser fires the callback exactly for the frames found
by the greedy left-to-right scan — every delivered payload is the payload of
a well-formed frame, deliveries are in stream order with non-overlapping
extents, and a well-formed frame at `q` is delivered whenever no candidate
frame starting before `q` crosses it (in particular after an arbitrary junk
prefix containing no such crossing candidate). -/
theorem waveshareReceive_greedy_parse (buf : List Nat) :
    (∀ payload ∈ (WaveshareReceive buf).1,
      ∃ p, WellFormedFrameAt buf p ∧ payload = payloadAt buf p) ∧
    (((recvScanFuel buf.length buf 0).1.map Prod.fst).Chain'
      (fun a b => a + 5 + buf.getD a 0 ≤ b)) ∧
    (∀ q, WellFormedFrameAt buf q →
      (∀ i, i < q → ¬ CrossingCandidateAt buf i q) →
      payloadAt buf q ∈ (WaveshareReceive buf).1) := by
  refine ⟨?_, (recvScan_sound buf.length buf 0).2, ?_⟩
  · intro payload hp
    obtain ⟨pr, hpr, rfl⟩ := List.mem_map.mp hp
    obtain ⟨-, hwf, hpl⟩ := (recvScan_sound buf.length buf 0).1 pr hpr
    exact ⟨pr.1, hwf, hpl⟩
  · intro q hq hcross
    have hm := recvScan_complete buf q hq hcross buf.length 0 (by omega) (Nat.zero_le q)
    exact List.mem_map.mpr ⟨(q, payloadAt buf q), hm, rfl⟩

set_option maxRecDepth 400000 in
/-- Witness for C2: a frame preceded by a 3-byte junk prefix (no crossing
candidates) is still delivered. -/
theorem waveshareReceive_greedy_parse_witness :
    payloadAt ([0, 255, 236] ++ (1 :: WriteU32_LE (FastCrc32 [7]) ++ [7])) 3 ∈
      (WaveshareReceive ([0, 255, 236] ++ (1 :: WriteU32_LE (FastCrc32 [7]) ++ [7]))).1 := by
  refine (waveshareReceive_greedy_parse _).2.2 3 (by decide) ?_
  intro i hi
  interval_cases i <;> decide

set_option maxRecDepth 400000 in
/-- Counterexample for C2 as stated: a buffer containing two well-formed
frames (one nested inside the other's payload) for which the parser fires
only one callback, so the callback is not invoked for every well-formed
frame in the byte sequence. -/
theorem waveshareReceive_shadowed_frame :
    WellFormedFrameAt
        (6 :: WriteU32_LE (FastCrc32 (1 :: WriteU32_LE (FastCrc32 [0]) ++ [0])) ++
          (1 :: WriteU32_LE (FastCrc32 [0]) ++ [0])) 5 ∧
    payloadAt
        (6 :: WriteU32_LE (FastCrc32 (1 :: WriteU32_LE (FastCrc32 [0]) ++ [0])) ++
          (1 :: WriteU32_LE (FastCrc32 [0]) ++ [0])) 5 = [0] ∧
    (WaveshareReceive
        (6 :: WriteU32_LE (FastCrc32 (1 :: WriteU32_LE (FastCrc32 [0]) ++ [0])) ++
          (1 :: WriteU32_LE (FastCrc32 [0]) ++ [0]))).1 =
      [1 :: WriteU32_LE (FastCrc32 [0]) ++ [0]] ∧
    [0] ∉ (WaveshareReceive
        (6 :: WriteU32_LE (FastCrc32 (1 :: WriteU32_LE (FastCrc32 [0]) ++ [0])) ++
          (1 :: WriteU32_LE (FastCrc32 [0]) ++ [0]))).1 := by
  decide

/-- Every packet the sender loop emits keeps the 235-byte buffer length: the
loop buffer stays `1 + kBlockBytes` bytes and each sent packet is
`1 + block_bytes` bytes. -/
lemma senderRun_length (enc : Nat → List Nat)
    (henc : ∀ id, (enc id).length = kBlockBytes) :
    ∀ n b id, b.length = 1 + kBlockBytes →
      ∀ p ∈ senderRun enc b id n, p.length = 1 + kBlockBytes := by
  intro n
  induction n with
  | zero => intro b id hb p hp; simp [senderRun] at hp
  | succ n ih =>
    intro b id hb p hp
    rcases List.mem_cons.mp hp with rfl | hp
    · simp [List.length_take, List.length_set, hb, henc id, Nat.add_comm]
    · refine ih _ (id + 1) ?_ p hp
      simp [List.length_append, List.length_drop, List.length_set, hb, henc (id + 1),
        Nat.add_comm]

set_option maxRecDepth 1000000 in
/-- C5 (failing-input evaluation): with an encoder producing the constant
block `[id+1, id+1, ...]`, packet 0 is the claimed `[id byte] ++ block`, but
packet 1 is not `[1] ++ enc 1`: the encoder output for id 1 was written at
offset 0 of the packet buffer, so its first byte is overwritten by the id
byte and the final payload byte is a stale byte of block 0. -/
theorem senderLoop_data_packet_bug :
    (senderPackets (fun id => List.replicate 234 (id + 1)) 0 2).getD 0 [] =
      0 :: List.replicate 234 1 ∧
    (senderPackets (fun id => List.replicate 234 (id + 1)) 0 2).getD 1 [] ≠
      1 :: List.replicate 234 2 ∧
    (senderPackets (fun id => List.replicate 234 (id + 1)) 0 2).getD 1 [] =
      1 :: (List.replicate 233 2 ++ [1]) := by
  decide

/-- C6: the sender loop emits only 235-byte data packets — no emission is a
16-byte info packet, at id multiples of 32 or anywhere else. -/
theorem senderLoop_no_info_packets (enc : Nat → List Nat) (u0 n : Nat)
    (henc : ∀ id, (enc id).length = kBlockBytes) :
    ∀ p ∈ senderPackets enc u0 n, p.length = kPacketMaxBytes ∧ p.length ≠ 16 := by
  intro p hp
  have h := senderRun_length enc henc n (u0 :: enc 0) 0 (by simp [henc 0]; omega) p hp
  exact ⟨by rw [h]; decide, by rw [h]; decide⟩

set_option maxRecDepth 1000000 in
/-- Witness for C6 at a concrete encoder and the first emitted packet. -/
theorem senderLoop_no_info_packets_witness :
    (0 :: List.replicate 234 5).length = kPacketMaxBytes ∧
    (0 :: List.replicate 234 5).length ≠ 16 := by
  refine senderLoop_no_info_packets (fun _ => List.replicate 234 5) 0 1
    (fun _ => by simp [kBlockBytes]) _ ?_
  decide

/-- A data block arriving while no file metadata is known (`FileBytes = 0`)
is only buffered: no callback fires and `FileBytes` stays 0. -/
lemma onBlock_noFile (st : RxState) (t : Nat) (d : List Nat) (orc : BlockOracle)
    (h : st.fileBytes = 0) :
    (onBlock st t d orc).2 = [] ∧ (onBlock st t d orc).1.fileBytes = 0 := by
  unfold onBlock
  cases htc : st.transferComplete <;> simp [htc, h]

/-- Feeding the receiver only 235-byte data packets from the zero-metadata
state produces no events at all and leaves `FileBytes = 0`. -/
lemma rxRun_data_only (pkts : List (List Nat)) :
    ∀ st orcs, st.fileBytes = 0 → (∀ p ∈ pkts, p.length = kPacketMaxBytes) →
      (rxRun st pkts orcs).2 = [] ∧ (rxRun st pkts orcs).1.fileBytes = 0 := by
  induction pkts with
  | nil => intro st orcs h _; simpa [rxRun] using h
  | cons p ps ih =>
    intro st orcs h hp
    have hpl : p.length = kPacketMaxBytes := hp p (List.mem_cons_self p ps)
    have hdis : rxDispatch st p (orcs 0) = onBlock st p.headI (p.drop 1) (orcs 0).block := by
      unfold rxDispatch
      rw [if_neg (by rw [hpl]; decide), if_pos hpl]
    have hb := onBlock_noFile st p.headI (p.drop 1) (orcs 0).block h
    have hrest := ih (rxDispatch st p (orcs 0)).1 (fun i => orcs (i + 1))
      (by rw [hdis]; exact hb.2) (fun q hq => hp q (List.mem_cons_of_mem p hq))
    refine ⟨?_, ?_⟩
    · show (rxDispatch st p (orcs 0)).2 ++ _ = []
      rw [hdis, hb.1, List.nil_append]
      rw [hdis] at hrest
      exact hrest.1
    · exact hrest.2

/-- C1 (failing behaviour): the full pipeline of this source never delivers.
The sender loop emits only data packets (never a 16-byte info packet), and a
receiver that is fed exactly the sender's emissions from its initial state
buffers everything, fires no callback at all (no progress and no final
`(name, bytes)` delivery), and never learns a compressed length. -/
theorem sender_receiver_pipeline_no_delivery (enc : Nat → List Nat) (u0 n : Nat)
    (orcs : Nat → StepOracle) (henc : ∀ id, (enc id).length = kBlockBytes) :
    (rxRun initialRxState (senderPackets enc u0 n) orcs).2 = [] ∧
    (rxRun initialRxState (senderPackets enc u0 n) orcs).1.fileBytes = 0 := by
  refine rxRun_data_only (senderPackets enc u0 n) initialRxState orcs rfl ?_
  intro p hp
  have h := senderRun_length enc henc n (u0 :: enc 0) 0 (by simp [henc 0]; omega) p hp
  rw [h]; decide

set_option maxRecDepth 1000000 in
/-- Witness for C1 with a concrete encoder, one emitted packet and concrete
codec oracles. -/
theorem sender_receiver_pipeline_no_delivery_witness :
    (rxRun initialRxState (senderPackets (fun _ => List.replicate 234 3) 0 1)
      (fun _ => ⟨⟨true, fun _ => ⟨.needMore, none, 0, []⟩⟩, ⟨.needMore, none, 0, []⟩⟩)).2 =
      [] := by
  exact (sender_receiver_pipeline_no_delivery (fun _ => List.replicate 234 3) 0 1
    (fun _ => ⟨⟨true, fun _ => ⟨.needMore, none, 0, []⟩⟩, ⟨.needMore, none, 0, []⟩⟩)
    (fun _ => by simp [kBlockBytes])).1

set_option maxRecDepth 1000000 in
/-- C7 (failing-input evaluation): with metadata known
(`FileBytes = 468 ≠ 0`) and the latch clear, `OnBlock` first advances
`NextBlockId` to `expand_block_id(291, 1) = 257` and then submits under
that id — but it submits `data + 1, bytes - 1`, i.e. only the last 233 of
the 234 encoded block bytes, not the full block. -/
theorem onBlock_submits_truncated_tail :
    (onBlock { transferComplete := false, fileBytes := 468,
               decompressedBytes := 300, fileHash := 0, nextBlockId := 291,
               totalBlockCount := 2, fileBlockCount := 0, bufferedBlocks := [] }
        1 (List.range 234)
        { decodeRes := .needMore, recoverRes := none, zstdRet := 0, zstdOut := [] }).2 =
      [RxEvent.submit (expandFromTruncated 291 1) ((List.range 234).drop 1),
       RxEvent.progress] ∧
    (onBlock { transferComplete := false, fileBytes := 468,
               decompressedBytes := 300, fileHash := 0, nextBlockId := 291,
               totalBlockCount := 2, fileBlockCount := 0, bufferedBlocks := [] }
        1 (List.range 234)
        { decodeRes := .needMore, recoverRes := none, zstdRet := 0, zstdOut := [] }).1.nextBlockId =
      expandFromTruncated 291 1 ∧
    expandFromTruncated 291 1 = 257 ∧
    ((List.range 234).drop 1).length = 233 := by
  decide

set_option maxRecDepth 1000000 in
/-- Counterexample for C8: a concrete success path in which the CRC-32C of
the decompressed bytes differs from the stored `FileHash`, yet the receiver
delivers the file — no integrity hash is recomputed or compared. -/
theorem onBlock_delivers_despite_hash_mismatch :
    (onBlock { transferComplete := false, fileBytes := 234,
               decompressedBytes := 4, fileHash := 0, nextBlockId := 0,
               totalBlockCount := 1, fileBlockCount := 0, bufferedBlocks := [] }
        0 (List.replicate 234 7)
        { decodeRes := .success, recoverRes := some (List.replicate 234 9),
          zstdRet := 4, zstdOut := [1, 65, 0, 66] }).2 =
      [RxEvent.submit 0 (List.replicate 233 7), RxEvent.deliver [65] [66]] ∧
    FastCrc32 [1, 65, 0, 66] ≠ 0 := by
  decide

/-- C8 (amended): `OnBlock` neither reads nor modifies the stored
integrity hash — its callbacks (including final delivery) are identical for
any two values of `FileHash`, and the resulting state differs only in the
untouched `FileHash` field. -/
theorem onBlock_ignores_fileHash (st : RxState) (t : Nat) (d : List Nat)
    (orc : BlockOracle) (h h' : Nat) :
    (onBlock { st with fileHash := h } t d orc).2 =
      (onBlock { st with fileHash := h' } t d orc).2 ∧
    (onBlock { st with fileHash := h } t d orc).1 =
      { (onBlock { st with fileHash := h' } t d orc).1 with fileHash := h } := by
  unfold onBlock
  cases htc : st.transferComplete <;>
    by_cases hfb : st.fileBytes = 0 <;>
      cases hdr : orc.decodeRes <;>
        cases hrr : orc.recoverRes <;>
          by_cases hzr : orc.zstdRet = st.decompressedBytes <;>
            simp [htc, hfb, hdr, hrr, hzr] <;>
              cases hds : deliverStage st.decompressedBytes orc.zstdOut <;>
                simp [hds]

set_option maxRecDepth 1000000 in
/-- Counterexample for C9: on a decoder error the receiver does not reset
`FileBytes` (the compressed length) to 0 — it stays at its old nonzero
value, with the transfer-complete latch set and nothing delivered. -/
theorem onBlock_error_does_not_reset :
    (onBlock { transferComplete := false, fileBytes := 468,
               decompressedBytes := 300, fileHash := 5, nextBlockId := 0,
               totalBlockCount := 2, fileBlockCount := 0, bufferedBlocks := [] }
        0 (List.replicate 234 1)
        { decodeRes := .error, recoverRes := none, zstdRet := 0, zstdOut := [] }).1.fileBytes =
      468 ∧
    (onBlock { transferComplete := false, fileBytes := 468,
               decompressedBytes := 300, fileHash := 5, nextBlockId := 0,
               totalBlockCount := 2, fileBlockCount := 0, bufferedBlocks := [] }
        0 (List.replicate 234 1)
        { decodeRes := .error, recoverRes := none, zstdRet := 0, zstdOut := [] }).2 =
      [RxEvent.submit 0 (List.replicate 233 1)] ∧
    (468 : Nat) ≠ 0 := by
  decide

/-- C9 (amended): on a decoder error or any post-recovery validation
failure (recover failure, decompressed-length mismatch, malformed inner
header), the receiver latches transfer-complete and returns without
delivering, leaving `FileBytes` (the compressed length) unchanged — it is
not reset to 0; only a changed info-packet header triple or the idle
timeout can restart a transfer. -/
theorem onBlock_failure_latches_without_reset (st : RxState) (t : Nat)
    (d : List Nat) (orc : BlockOracle) (htc : st.transferComplete = false)
    (hfb : st.fileBytes ≠ 0) (hfail : blockFailure st orc) :
    (onBlock st t d orc).1.fileBytes = st.fileBytes ∧
    (onBlock st t d orc).1.transferComplete = true ∧
    ∀ name fd, RxEvent.deliver name fd ∉ (onBlock st t d orc).2 := by
  obtain ⟨hnm, hfail⟩ := hfail
  unfold onBlock
  cases hdr : orc.decodeRes
  case needMore => exact absurd hdr hnm
  case error => simp [htc, hfb]
  case success =>
    cases hrr : orc.recoverRes with
    | none => simp [htc, hfb, hrr]
    | some fd =>
      rcases hfail with h | h | h | h
      · exact absurd hdr h
      · rw [hrr] at h; exact absurd h (by simp)
      · simp [htc, hfb, hrr, h]
      · by_cases hzr : orc.zstdRet = st.decompressedBytes
        · simp [htc, hfb, hrr, hzr, h]
        · simp [htc, hfb, hrr, hzr]

set_option maxRecDepth 1000000 in
/-- Witness for C9's amended theorem at a concrete decoder-error state. -/
theorem onBlock_failure_latches_without_reset_witness :
    (onBlock { transferComplete := false, fileBytes := 702,
               decompressedBytes := 10, fileHash := 1, nextBlockId := 4,
               totalBlockCount := 3, fileBlockCount := 1, bufferedBlocks := [] }
        5 (List.replicate 234 2)
        { decodeRes := .error, recoverRes := none, zstdRet := 0, zstdOut := [] }).1.fileBytes =
      702 ∧
    (onBlock { transferComplete := false, fileBytes := 702,
               decompressedBytes := 10, fileHash := 1, nextBlockId := 4,
               totalBlockCount := 3, fileBlockCount := 1, bufferedBlocks := [] }
        5 (List.replicate 234 2)
        { decodeRes := .error, recoverRes := none, zstdRet := 0, zstdOut := [] }).1.transferComplete =
      true := by
  have h := onBlock_failure_latches_without_reset
    { transferComplete := false, fileBytes := 702, decompressedBytes := 10,
      fileHash := 1, nextBlockId := 4, totalBlockCount := 3,
      fileBlockCount := 1, bufferedBlocks := [] } 5 (List.replicate 234 2)
    { decodeRes := .error, recoverRes := none, zstdRet := 0, zstdOut := [] }
    rfl (by decide) (by decide)
  exact ⟨h.1, h.2.1⟩

/-- C10: the delivery stage delivers exactly when
`1 + name_length + 1 ≤ D` (with `name_length` the first decompressed byte
and `D = DecompressedBytes` the buffer length); under that guard the forced
NUL index `1 + name_length` is inside the buffer and the delivered file
length satisfies `file_bytes + (name_length + 2) = D` (so it is
non-negative and can be 0 — the concrete conjunct delivers an empty file). -/
theorem deliverStage_guard (D : Nat) (dd : List Nat) (hdd : dd.length = D) :
    (deliverStage D dd = none ↔ D < dd.headI + 2) ∧
    (∀ name fd, deliverStage D dd = some (name, fd) →
      1 + dd.headI < dd.length ∧ fd.length + (dd.headI + 2) = D) ∧
    deliverStage 2 [0, 0] = some ([], []) := by
  refine ⟨?_, ?_, by decide⟩
  · simp only [deliverStage]
    split_ifs with hg
    · simp; omega
    · simp; omega
  · intro name fd h
    simp only [deliverStage] at h
    by_cases hg : D < 1 + dd.headI + 1
    · rw [if_pos hg] at h
      exact absurd h (by simp)
    · rw [if_neg hg] at h
      have hfd : List.drop (1 + dd.headI + 1) (dd.set (1 + dd.headI) 0) = fd :=
        congrArg Prod.snd (Option.some_inj.mp h)
      constructor
      · omega
      · rw [← hfd]
        simp only [List.length_drop, List.length_set, hdd]
        omega

/-- Witness for C10 at the 5-byte decompressed buffer
`[1, 'A', 0, 66, 67]` (name "A", two file bytes). -/
theorem deliverStage_guard_witness :
    deliverStage 5 [1, 65, 0, 66, 67] = some ([65], [66, 67]) ∧
    1 + 1 < 5 ∧ 2 + (1 + 2) = 5 := by
  have h := (deliverStage_guard 5 [1, 65, 0, 66, 67] (by decide)).2.1
    [65] [66, 67] (by decide)
  exact ⟨by decide, by simpa using h⟩

end Loraftp
